import Mathlib

/-!
Verification of the request-orchestration and caching core of the PicGen
repository (src/core/image_tool.py and src/utils/image_cache.py), via a
shallow embedding of the Python source into Lean.

Modelling conventions:
* Network behaviour is an oracle `Nat → Outcome` giving the outcome of the
  HTTP GET performed at each zero-indexed loop attempt.
* The deterministic digest (MD5 in the source) is an arbitrary function
  `String → String` applied to the exact content string the source builds;
  every theorem quantifies over it.
* Randomness (random.randint) is an oracle natural number `r`; the Python
  function random.randint(a, b) returns an integer N with a ≤ N ≤ b, BOTH
  endpoints included, which is modelled by `a + r % (b + 1 - a)`.
* The filesystem is a predicate `String → Bool` telling which paths exist.
* Timestamps are explicit parameters.
-/

namespace PicGen

/-! ## Substring containment, modelling the Python `in` operator on strings -/

/-- Boolean test that `n` occurs at the very start of `h` (character lists). -/
def leadsWith : List Char → List Char → Bool
  | [], _ => true
  | _ :: _, [] => false
  | a :: as, b :: bs => a == b && leadsWith as bs

/-- Boolean test that the character list `n` occurs contiguously inside `h`;
this is the embedding of the Python expression `n in h` on strings. -/
def containsSub (n : List Char) : List Char → Bool
  | [] => leadsWith n []
  | c :: cs => leadsWith n (c :: cs) || containsSub n cs

theorem leadsWith_iff (n h : List Char) :
    leadsWith n h = true ↔ ∃ t, h = n ++ t := by
  induction n generalizing h with
  | nil => simp [leadsWith]
  | cons a as ih =>
    cases h with
    | nil =>
      simp only [leadsWith]
      constructor
      · intro hx; cases hx
      · rintro ⟨t, ht⟩; cases ht
    | cons b bs =>
      simp only [leadsWith, Bool.and_eq_true, beq_iff_eq, ih]
      constructor
      · rintro ⟨rfl, t, rfl⟩; exact ⟨t, rfl⟩
      · rintro ⟨t, ht⟩
        injection ht with h1 h2
        exact ⟨h1.symm, t, h2⟩

theorem containsSub_iff (n h : List Char) :
    containsSub n h = true ↔ ∃ pre post, h = pre ++ n ++ post := by
  induction h with
  | nil =>
    simp only [containsSub, leadsWith_iff]
    constructor
    · rintro ⟨t, ht⟩; exact ⟨[], t, by simpa using ht⟩
    · rintro ⟨pre, post, hx⟩
      rcases List.append_eq_nil.1 (List.append_eq_nil.1 hx.symm).1 with ⟨h1, h2⟩
      exact ⟨post, by simp [h2, (List.append_eq_nil.1 hx.symm).2]⟩
  | cons c cs ih =>
    simp only [containsSub, Bool.or_eq_true, leadsWith_iff, ih]
    constructor
    · rintro (⟨t, ht⟩ | ⟨pre, post, hx⟩)
      · exact ⟨[], t, by simpa using ht⟩
      · exact ⟨c :: pre, post, by simp [hx]⟩
    · rintro ⟨pre, post, hx⟩
      cases pre with
      | nil => exact Or.inl ⟨post, by simpa using hx⟩
      | cons p ps =>
        injection hx with h1 h2
        exact Or.inr ⟨ps, post, h2⟩

/-! ## HTTP retry client: embedding of ImageTool._make_request

The Python loop is `for attempt in range(max_retries)` with a single
requests.get call per iteration.  The outcome of the call at each attempt
is given by the oracle.  The per-iteration behaviour, straight from the
source:
* transport failure (requests.exceptions.RequestException): logged, fall
  through to the backoff sleep guard;
* HTTP error status (raise_for_status, i.e. status in 400..599): if the
  status is below 500, `break` out of the loop (so the trailing
  ConnectionError is raised with no sleep); otherwise fall through to the
  sleep guard;
* a non-error status whose content-type lacks both substrings "image" and
  "octet-stream": a ValueError is raised, which none of the except clauses
  catches, so it propagates immediately;
* otherwise the response is returned.
The sleep guard is `if attempt < max_retries - 1: time.sleep(2 ** attempt)`.

The value of the embedding is a triple: the Except result (ok carries
status and content-type), the number of HTTP requests issued, and the list
of sleep durations in order. -/

/-- Outcome of one underlying HTTP GET, as seen by the retry loop. -/
inductive Outcome where
  | transportError
  | response (status : Nat) (contentType : String)
deriving DecidableEq

/-- Error classification of the retry client: the trailing ConnectionError
and the content-type ValueError of the source are distinct constructors. -/
inductive FetchError where
  | connectionError
  | invalidContentType (ct : String)
deriving DecidableEq

/-- Embedding of response.raise_for_status: it raises HTTPError exactly for
client and server error statuses (400 ≤ status < 600). -/
def raisesForStatus (s : Nat) : Bool := decide (400 ≤ s) && decide (s < 600)

/-- Embedding of the content-type guard of the source:
`'image' not in content_type and 'octet-stream' not in content_type`
triggers the ValueError, so a content type is acceptable when it contains
either substring. -/
def okContentType (ct : String) : Bool :=
  containsSub "image".toList ct.toList || containsSub "octet-stream".toList ct.toList

/-- One step of the retry loop of ImageTool._make_request.  `attempt` is the
current zero-indexed attempt and `fuel` the number of loop iterations still
available (initially max_retries, so `attempt = max_retries - fuel`
throughout an actual run).  Returns (result, requests issued, sleeps). -/
def make_request_go (oracle : Nat → Outcome) (max_retries : Nat) :
    Nat → Nat → Except FetchError (Nat × String) × Nat × List Nat
  | _, 0 => (Except.error FetchError.connectionError, 0, [])
  | attempt, fuel + 1 =>
    match oracle attempt with
    | Outcome.transportError =>
      let rest := make_request_go oracle max_retries (attempt + 1) fuel
      (rest.1, rest.2.1 + 1,
        if attempt < max_retries - 1 then 2 ^ attempt :: rest.2.2 else rest.2.2)
    | Outcome.response status ct =>
      if raisesForStatus status then
        if status < 500 then
          (Except.error FetchError.connectionError, 1, [])
        else
          let rest := make_request_go oracle max_retries (attempt + 1) fuel
          (rest.1, rest.2.1 + 1,
            if attempt < max_retries - 1 then 2 ^ attempt :: rest.2.2 else rest.2.2)
      else
        if okContentType ct then
          (Except.ok (status, ct), 1, [])
        else
          (Except.error (FetchError.invalidContentType ct), 1, [])

/-- Embedding of ImageTool._make_request with the retry budget
`max_retries`: run the loop from attempt 0. -/
def make_request (oracle : Nat → Outcome) (max_retries : Nat) :
    Except FetchError (Nat × String) × Nat × List Nat :=
  make_request_go oracle max_retries 0 max_retries

/-- An outcome is retryable when it is a transport-level failure or a
server-error response (status at least 500). -/
def Retryable (o : Outcome) : Prop :=
  o = Outcome.transportError ∨
    ∃ s ct, o = Outcome.response s ct ∧ 500 ≤ s ∧ s < 600

theorem make_request_go_exhaustion (oracle : Nat → Outcome) :
    ∀ (fuel attempt max_retries : Nat), attempt + fuel = max_retries →
      (∀ i, attempt ≤ i → i < max_retries → Retryable (oracle i)) →
      make_request_go oracle max_retries attempt fuel =
        (Except.error FetchError.connectionError, fuel,
          (List.range' attempt (fuel - 1)).map (fun a => 2 ^ a)) := by
  intro fuel
  induction fuel with
  | zero => intro attempt max_retries _ _; rfl
  | succ f ih =>
    intro attempt max_retries hsum hr
    have hlt : attempt < max_retries := by omega
    have hrest := ih (attempt + 1) max_retries (by omega)
      (fun i hi hi2 => hr i (by omega) hi2)
    have hcond : (attempt < max_retries - 1) = (0 < f) := by
      simp only [eq_iff_iff]; omega
    rcases hr attempt (Nat.le_refl attempt) hlt with hto | ⟨s, ct, ho, hs5, hs6⟩
    · simp only [make_request_go, hto, hrest, hcond]
      cases f with
      | zero => simp
      | succ f2 =>
        rw [if_pos (Nat.succ_pos f2)]
        simp [List.range'_succ]
    · have hraise : raisesForStatus s = true := by
        simp only [raisesForStatus, Bool.and_eq_true, decide_eq_true_eq]
        omega
      have hnot : ¬ s < 500 := by omega
      simp only [make_request_go, ho, hraise, if_true, if_neg hnot, hrest, hcond]
      cases f with
      | zero => simp
      | succ f2 =>
        rw [if_pos (Nat.succ_pos f2)]
        simp [List.range'_succ]

/-- C3: when every attempt fails with a retryable error (status 500..599 or
a transport failure), the client issues exactly max_retries requests, sleeps
2 ^ attempt after every failed attempt except the last, and ends with the
connection-exhausted error. -/
theorem make_request_all_retryable (oracle : Nat → Outcome) (max_retries : Nat)
    (hr : ∀ i, i < max_retries → Retryable (oracle i)) :
    make_request oracle max_retries =
      (Except.error FetchError.connectionError, max_retries,
        (List.range (max_retries - 1)).map (fun a => 2 ^ a)) := by
  have h := make_request_go_exhaustion oracle max_retries 0 max_retries
    (by omega) (fun i _ hi => hr i hi)
  rw [make_request, h, List.range_eq_range']

/-- Witness for C3: with three attempts all failing at transport level, the
client issues 3 requests, sleeps 1 then 2 time units, and fails with the
connection-exhausted error. -/
theorem make_request_all_retryable_witness :
    make_request (fun _ => Outcome.transportError) 3 =
      (Except.error FetchError.connectionError, 3, [1, 2]) := by
  have h := make_request_all_retryable (fun _ => Outcome.transportError) 3
    (fun i _ => Or.inl rfl)
  simpa using h

/-- C4: a first attempt answered with a non-2xx status below 500 (for
example 404) aborts immediately: exactly one request in total, no sleep, no
consumption of the remaining retry budget, and the call fails. -/
theorem make_request_nonretryable_abort (oracle : Nat → Outcome)
    (mr s : Nat) (ct : String)
    (h0 : oracle 0 = Outcome.response s ct) (h4 : 400 ≤ s) (h5 : s < 500) :
    make_request oracle (mr + 1) =
      (Except.error FetchError.connectionError, 1, []) := by
  have hraise : raisesForStatus s = true := by
    simp only [raisesForStatus, Bool.and_eq_true, decide_eq_true_eq]
    omega
  simp only [make_request, make_request_go, h0, hraise, if_true, if_pos h5]

/-- Witness for C4: a 404 on the first attempt with a budget of 3 retries
makes one request, sleeps never, and fails. -/
theorem make_request_nonretryable_abort_witness :
    make_request (fun _ => Outcome.response 404 "text/html") 3 =
      (Except.error FetchError.connectionError, 1, []) :=
  make_request_nonretryable_abort (fun _ => Outcome.response 404 "text/html")
    2 404 "text/html" rfl (by omega) (by omega)

/-- C5: a 2xx response whose content-type contains neither "image" nor
"octet-stream" as a substring makes the fetch fail with the content-type
validation error, a classification distinct from the connection error, and
is never returned as a successful image result. -/
theorem make_request_content_type_guard (oracle : Nat → Outcome)
    (mr s : Nat) (ct : String)
    (h0 : oracle 0 = Outcome.response s ct) (h2 : 200 ≤ s) (h3 : s < 300)
    (himg : containsSub "image".toList ct.toList = false)
    (hoct : containsSub "octet-stream".toList ct.toList = false) :
    make_request oracle (mr + 1) =
        (Except.error (FetchError.invalidContentType ct), 1, []) ∧
      FetchError.invalidContentType ct ≠ FetchError.connectionError := by
  have hraise : raisesForStatus s = false := by
    simp only [raisesForStatus, Bool.and_eq_false_iff, decide_eq_false_iff_not]
    omega
  have hok : okContentType ct = false := by
    simp only [okContentType, Bool.or_eq_false_iff]
    exact ⟨himg, hoct⟩
  refine ⟨?_, by simp⟩
  simp only [make_request, make_request_go, h0, hraise, Bool.false_eq_true,
    if_false, hok]

/-- Witness for C5: a 200 response declared as text/html is rejected with
the validation error. -/
theorem make_request_content_type_guard_witness :
    make_request (fun _ => Outcome.response 200 "text/html") 3 =
        (Except.error (FetchError.invalidContentType "text/html"), 1, []) ∧
      FetchError.invalidContentType "text/html" ≠ FetchError.connectionError :=
  make_request_content_type_guard (fun _ => Outcome.response 200 "text/html")
    2 200 "text/html" rfl (by omega) (by omega) (by decide) (by decide)

/-- C10: a content-type validation failure is never retried.  At any point
of the loop, with any retry budget and any remaining fuel, an attempt whose
response is 2xx with a content-type lacking both "image" and "octet-stream"
ends the fetch on that very attempt: one request from that point, no
backoff sleep, remaining budget unconsumed, the validation error
propagating out. -/
theorem make_request_validation_not_retried (oracle : Nat → Outcome)
    (max_retries attempt fuel s : Nat) (ct : String)
    (ha : oracle attempt = Outcome.response s ct) (h2 : 200 ≤ s) (h3 : s < 300)
    (himg : containsSub "image".toList ct.toList = false)
    (hoct : containsSub "octet-stream".toList ct.toList = false) :
    make_request_go oracle max_retries attempt (fuel + 1) =
      (Except.error (FetchError.invalidContentType ct), 1, []) := by
  have hraise : raisesForStatus s = false := by
    simp only [raisesForStatus, Bool.and_eq_false_iff, decide_eq_false_iff_not]
    omega
  have hok : okContentType ct = false := by
    simp only [okContentType, Bool.or_eq_false_iff]
    exact ⟨himg, hoct⟩
  simp only [make_request_go, ha, hraise, Bool.false_eq_true, if_false, hok]

/-- Witness for C10: mid-loop (attempt 1 of a 5-attempt budget, 4 fuel
remaining), a 201 response declared application/json stops the loop at
once with the validation error. -/
theorem make_request_validation_not_retried_witness :
    make_request_go (fun _ => Outcome.response 201 "application/json") 5 1 4 =
      (Except.error (FetchError.invalidContentType "application/json"), 1, []) :=
  make_request_validation_not_retried
    (fun _ => Outcome.response 201 "application/json") 5 1 3 201
    "application/json" rfl (by omega) (by omega) (by decide) (by decide)

/-! ## Content-addressed cache: embedding of ImageCache (src/utils/image_cache.py)

The parameter dictionary passed to the cache holds integers, strings and
booleans; a Python dict is embedded as an association list recording the
insertion order, and json.dumps with sort_keys=True serializes the pairs
after sorting them by key.  Escape sequences inside serialized strings are
not modelled (the serialization stays a pure function of the value, which
is all the hashing claims rely on). -/

/-- JSON-serializable parameter value (the dicts of the source hold only
integers, strings and booleans). -/
inductive JValue where
  | jint (n : Int)
  | jstr (s : String)
  | jbool (b : Bool)
deriving DecidableEq

/-- Serialization of one parameter value, as json.dumps renders it. -/
def jserialize : JValue → String
  | JValue.jint n => toString n
  | JValue.jstr s => "\"" ++ s ++ "\""
  | JValue.jbool b => if b then "true" else "false"

/-- Executable lexicographic comparison of character lists, by code point;
this is the string order under which json.dumps sorts the keys. -/
def charListLeb : List Char → List Char → Bool
  | [], _ => true
  | _ :: _, [] => false
  | a :: as, b :: bs =>
    if a.toNat < b.toNat then true
    else if b.toNat < a.toNat then false
    else charListLeb as bs

theorem charListLeb_total : ∀ x y, charListLeb x y = true ∨ charListLeb y x = true := by
  intro x
  induction x with
  | nil => intro y; exact Or.inl rfl
  | cons a as ih =>
    intro y
    cases y with
    | nil => exact Or.inr rfl
    | cons b bs =>
      rcases Nat.lt_trichotomy a.toNat b.toNat with h | h | h
      · left; simp [charListLeb, h]
      · rcases ih bs with h2 | h2
        · left; simp [charListLeb, h, h2]
        · right; simp [charListLeb, h.symm, h2]
      · right; simp [charListLeb, h]

theorem charListLeb_trans :
    ∀ x y z, charListLeb x y = true → charListLeb y z = true →
      charListLeb x z = true := by
  intro x
  induction x with
  | nil => intro y z _ _; rfl
  | cons a as ih =>
    intro y z hxy hyz
    cases y with
    | nil => simp [charListLeb] at hxy
    | cons b bs =>
      cases z with
      | nil => simp [charListLeb] at hyz
      | cons c cs =>
        rcases Nat.lt_trichotomy a.toNat b.toNat with hab | hab | hab <;>
          rcases Nat.lt_trichotomy b.toNat c.toNat with hbc | hbc | hbc <;>
            simp only [charListLeb] at hxy hyz ⊢ <;>
              first
                | (rw [if_pos (by omega)])
                | (rw [if_neg (by omega), if_neg (by omega)]
                   rw [if_neg (by omega), if_neg (by omega)] at hxy hyz
                   exact ih bs cs hxy hyz)
                | (exfalso
                   rw [if_neg (by omega), if_pos (by omega)] at hxy
                   exact Bool.false_ne_true hxy)
                | (exfalso
                   rw [if_neg (by omega), if_pos (by omega)] at hyz
                   exact Bool.false_ne_true hyz)

theorem charListLeb_antisymm :
    ∀ x y, charListLeb x y = true → charListLeb y x = true → x = y := by
  intro x
  induction x with
  | nil =>
    intro y _ hyx
    cases y with
    | nil => rfl
    | cons b bs => simp [charListLeb] at hyx
  | cons a as ih =>
    intro y hxy hyx
    cases y with
    | nil => simp [charListLeb] at hxy
    | cons b bs =>
      rcases Nat.lt_trichotomy a.toNat b.toNat with hab | hab | hab
      · exfalso
        simp only [charListLeb] at hyx
        rw [if_neg (by omega), if_pos (by omega)] at hyx
        exact Bool.false_ne_true hyx
      · have hchar : a = b := by
          cases a; cases b
          simp only [Char.toNat] at hab
          congr 1
          exact UInt32.toNat.inj hab
        subst hchar
        simp only [charListLeb] at hxy hyx
        rw [if_neg (by omega), if_neg (by omega)] at hxy hyx
        rw [ih bs hxy hyx]
      · exfalso
        simp only [charListLeb] at hxy
        rw [if_neg (by omega), if_pos (by omega)] at hxy
        exact Bool.false_ne_true hxy

/-- Key order used by json.dumps with sort_keys=True: compare the keys. -/
def keyLE (p q : String × JValue) : Prop :=
  charListLeb p.1.toList q.1.toList = true

instance : DecidableRel keyLE :=
  fun p q => inferInstanceAs (Decidable (charListLeb p.1.toList q.1.toList = true))

instance : IsTotal (String × JValue) keyLE :=
  ⟨fun a b => charListLeb_total a.1.toList b.1.toList⟩

instance : IsTrans (String × JValue) keyLE :=
  ⟨fun _ b _ hab hbc => charListLeb_trans _ b.1.toList _ hab hbc⟩

/-- The parameter pairs in the canonical sorted-by-key order produced by
json.dumps with sort_keys=True. -/
def canonicalPairs (ps : List (String × JValue)) : List (String × JValue) :=
  List.insertionSort keyLE ps

/-- Embedding of json.dumps(parameters, sort_keys=True). -/
def jdumpsSorted (ps : List (String × JValue)) : String :=
  "\x7b" ++ String.intercalate ", "
    ((canonicalPairs ps).map (fun p => "\"" ++ p.1 ++ "\": " ++ jserialize p.2)) ++ "\x7d"

namespace ImageCache

/-- Embedding of ImageCache._get_hash: the digest of the content string
prompt + "_" + json.dumps(parameters, sort_keys=True).  The MD5 digest of
the source is an arbitrary deterministic function passed as `digest`. -/
def get_hash (digest : String → String) (prompt : String)
    (parameters : List (String × JValue)) : String :=
  digest (prompt ++ "_" ++ jdumpsSorted parameters)

end ImageCache

/-- Two sorted association lists that are permutations of each other and
whose keys are pairwise distinct are equal. -/
theorem sorted_key_perm_eq :
    ∀ {l₁ l₂ : List (String × JValue)}, l₁.Perm l₂ →
      l₁.Sorted keyLE → l₂.Sorted keyLE → (l₁.map Prod.fst).Nodup → l₁ = l₂ := by
  intro l₁
  induction l₁ with
  | nil =>
    intro l₂ hp _ _ _
    exact hp.nil_eq
  | cons a t ih =>
    intro l₂ hp hs₁ hs₂ hn
    cases l₂ with
    | nil => exact absurd hp.symm.nil_eq (by simp)
    | cons b t₂ =>
      have hab : a = b := by
        have hamem : a ∈ b :: t₂ := hp.subset (List.mem_cons_self a t)
        have hbmem : b ∈ a :: t := hp.symm.subset (List.mem_cons_self b t₂)
        rcases List.mem_cons.1 hamem with h1 | h1
        · exact h1
        rcases List.mem_cons.1 hbmem with h2 | h2
        · exact h2.symm
        have hba : keyLE b a := (List.sorted_cons.1 hs₂).1 a h1
        have hab2 : keyLE a b := (List.sorted_cons.1 hs₁).1 b h2
        have hkey : a.1 = b.1 :=
          String.toList_inj.1 (charListLeb_antisymm _ _ hab2 hba)
        have hnotin : a.1 ∉ t.map Prod.fst := (List.nodup_cons.1 hn).1
        exact absurd (hkey ▸ List.mem_map_of_mem Prod.fst h2) hnotin
      subst hab
      have hp2 := hp.cons_inv
      have := ih hp2 (List.sorted_cons.1 hs₁).2 (List.sorted_cons.1 hs₂).2
        (List.nodup_cons.1 hn).2
      rw [this]

/-- C2: the cache hash is insensitive to parameter insertion order: for any
digest function, any prompt, and any two parameter dictionaries holding the
same key-value pairs (permutations of each other, keys pairwise distinct),
the hash keys coincide, because the parameters are serialized in canonical
sorted-key form before hashing. -/
theorem get_hash_canonical (digest : String → String) (prompt : String)
    (A B : List (String × JValue)) (hperm : A.Perm B)
    (hn : (A.map Prod.fst).Nodup) :
    ImageCache.get_hash digest prompt A = ImageCache.get_hash digest prompt B := by
  have hcanon : canonicalPairs A = canonicalPairs B := by
    refine sorted_key_perm_eq ?_ ?_ ?_ ?_
    · exact (List.perm_insertionSort keyLE A).trans
        (hperm.trans (List.perm_insertionSort keyLE B).symm)
    · exact List.sorted_insertionSort keyLE A
    · exact List.sorted_insertionSort keyLE B
    · exact ((List.perm_insertionSort keyLE A).map Prod.fst).nodup_iff.2 hn
  unfold ImageCache.get_hash jdumpsSorted
  rw [hcanon]

/-- Witness for C2: the same width and height pairs in the two possible
insertion orders hash identically (digest instantiated with the identity). -/
theorem get_hash_canonical_witness :
    ImageCache.get_hash (fun s => s) "a cat"
        [("width", JValue.jint 512), ("height", JValue.jint 768)] =
      ImageCache.get_hash (fun s => s) "a cat"
        [("height", JValue.jint 768), ("width", JValue.jint 512)] :=
  get_hash_canonical (fun s => s) "a cat"
    [("width", JValue.jint 512), ("height", JValue.jint 768)]
    [("height", JValue.jint 768), ("width", JValue.jint 512)]
    (by decide) (by decide)

/-! ## Cache lookup and store -/

/-- One row of the image_cache table: the primary key (prompt_hash) is the
association-list key, the row carries the filepath and last_accessed. -/
structure CacheEntry where
  filepath : String
  last_accessed : Int
deriving DecidableEq

namespace ImageCache

/-- Embedding of ImageCache.get: hash the prompt and parameters, look the
hash up; on a row whose file still exists, bump last_accessed to now and
return the path, else return none.  Returns the result together with the
updated table. -/
def get (digest : String → String) (now : Int)
    (table : List (String × CacheEntry)) (fs : String → Bool)
    (prompt : String) (parameters : List (String × JValue)) :
    Option String × List (String × CacheEntry) :=
  let h := get_hash digest prompt parameters
  match table.lookup h with
  | some e =>
    if fs e.filepath then
      (some e.filepath,
        table.map (fun p => if p.1 == h then (p.1, ⟨e.filepath, now⟩) else p))
    else (none, table)
  | none => (none, table)

/-- Embedding of ImageCache.store: INSERT OR REPLACE of the row keyed by
the hash, with last_accessed set to now. -/
def store (digest : String → String) (now : Int)
    (table : List (String × CacheEntry)) (prompt : String)
    (parameters : List (String × JValue)) (filepath : String) :
    List (String × CacheEntry) :=
  let h := get_hash digest prompt parameters
  table.filter (fun p => !(p.1 == h)) ++ [(h, ⟨filepath, now⟩)]

end ImageCache

/-! ## Generation orchestrator: embedding of ImageTool.generate_image -/

/-- Configuration values read through the ConfigManager. -/
structure Config where
  width : Int
  height : Int
  model : String
  add_logo : Bool
  enable_cache : Bool
  max_retries : Nat
  image_format : String
  output_dir : String
  model_edicion : String

/-- The keyword-argument overrides a caller may pass to generate_image. -/
structure Overrides where
  width : Option Int
  height : Option Int
  model : Option String
  seed : Option Int

/-- Embedding of the Python function random.randint(lo, hi), which returns
an integer N with lo ≤ N ≤ hi, BOTH endpoints included; `r` is the raw
randomness. -/
def randint (lo hi r : Nat) : Nat := lo + r % (hi + 1 - lo)

/-- The merged parameter dict built at the top of generate_image, in the
insertion order of the source: width, height, model, seed, nologo.  Every
value falls back from the override to the configured default, the seed
falls back to a random draw in randint(0, 1_000_000_000), and nologo is the
negation of the add_logo configuration flag. -/
def mergedParams (cfg : Config) (ov : Overrides) (r : Nat) :
    List (String × JValue) :=
  [("width", JValue.jint (ov.width.getD cfg.width)),
   ("height", JValue.jint (ov.height.getD cfg.height)),
   ("model", JValue.jstr (ov.model.getD cfg.model)),
   ("seed", JValue.jint (ov.seed.getD (randint 0 1000000000 r))),
   ("nologo", JValue.jbool (!cfg.add_logo))]

/-- Embedding of ImageTool._translate_prompt: truncate to 490 characters;
if the truncated text is pure ASCII return it unchanged with no network
call, otherwise consult the translation collaborator (whose
result-or-fallback is the oracle `webTranslate`). -/
def translate_prompt (webTranslate : String → String) (text : String) : String :=
  let t := text.take 490
  if t.toList.all (fun c => c.toNat < 128) then t else webTranslate t

/-- Session statistics dict of ImageTool. -/
structure Stats where
  images_generated : Nat
  cache_hits : Nat
  total_generation_time : Nat
  errors : Nat
deriving DecidableEq

/-- The mutable state a generate_image call touches: the statistics, the
cache table, and the filesystem. -/
structure GenState where
  stats : Stats
  table : List (String × CacheEntry)
  fs : String → Bool

/-- Observable actions of one generate_image call: HTTP requests issued,
backoff sleeps performed, and whether _translate_prompt was invoked. -/
structure GenTrace where
  httpRequests : Nat
  sleeps : List Nat
  translateInvoked : Bool
deriving DecidableEq

/-- Per-call environment of generate_image: raw randomness for the seed
draw, the translation collaborator, the HTTP oracle, whether _save_image
succeeds, the clock value, the timestamp string used in the filename, and
the elapsed duration added to the statistics. -/
structure GenEnv where
  r : Nat
  webTranslate : String → String
  fetch : Nat → Outcome
  saveOk : Bool
  now : Int
  timestamp : String
  duration : Nat

/-- Character class of the Python regular expression \w (word character);
the prompts and model tags handled by the claims are ASCII, where \w is
letters, digits and the underscore. -/
def isWordChar (c : Char) : Bool := c.isAlphanum || c == '_'

/-- Character class of the Python regular expression \s (ASCII range). -/
def isSpaceChar (c : Char) : Bool :=
  c == ' ' || c == '\t' || c == '\n' || c == '\r' || c == '\x0b' || c == '\x0c'

/-- A character kept by re.sub(r'[^\w\s-]', '', _). -/
def allowedChar (c : Char) : Bool := isWordChar c || isSpaceChar c || c == '-'

/-- Embedding of Python str.strip(): drop leading and trailing whitespace. -/
def stripChars (s : List Char) : List Char :=
  ((s.dropWhile isSpaceChar).reverse.dropWhile isSpaceChar).reverse

/-- The slug pipeline of ImageTool._generate_filename:
re.sub(r'[^\w\s-]', '', prompt.lower()).strip().replace(' ', '_'),
before the truncation to 50 characters. -/
def cleanCore (s : List Char) : List Char :=
  (stripChars ((s.map Char.toLower).filter allowedChar)).map
    (fun c => if c == ' ' then '_' else c)

/-- The cleaned prompt slug, truncated to 50 characters. -/
def cleanPrompt (prompt : String) : List Char := (cleanCore prompt.toList).take 50

/-- Embedding of ImageTool._generate_filename: slug, timestamp and the
lowercased configured image format. -/
def generate_filename (prompt timestamp fmt : String) : String :=
  String.mk (cleanPrompt prompt) ++ "_" ++ timestamp ++ "." ++ fmt

/-- The miss path of generate_image: translate the prompt, issue the
request through the retry client, save the file, populate the cache and
bump images_generated and total_generation_time; on any failure bump
errors and return none. -/
def generateMiss (digest : String → String) (cfg : Config) (env : GenEnv)
    (prompt : String) (params : List (String × JValue)) (st : GenState) :
    Option String × GenState × GenTrace :=
  let translated := translate_prompt env.webTranslate prompt
  match make_request env.fetch cfg.max_retries with
  | (Except.ok _, nreq, slept) =>
    if env.saveOk then
      let filename := generate_filename translated env.timestamp
        cfg.image_format.toLower
      let saved := cfg.output_dir ++ "/" ++ filename
      let table2 := if cfg.enable_cache then
          ImageCache.store digest env.now st.table prompt params saved
        else st.table
      (some saved,
        { stats :=
            { images_generated := st.stats.images_generated + 1,
              cache_hits := st.stats.cache_hits,
              total_generation_time :=
                st.stats.total_generation_time + env.duration,
              errors := st.stats.errors },
          table := table2,
          fs := fun p => p == saved || st.fs p },
        ⟨nreq, slept, true⟩)
    else
      (none,
        { st with stats := { st.stats with errors := st.stats.errors + 1 } },
        ⟨nreq, slept, true⟩)
  | (Except.error _, nreq, slept) =>
    (none,
      { st with stats := { st.stats with errors := st.stats.errors + 1 } },
      ⟨nreq, slept, true⟩)

/-- Embedding of ImageTool.generate_image: build the merged parameters,
consult the cache on the ORIGINAL prompt (when the cache is enabled); on a
hit bump cache_hits and return the cached path with no translation and no
request; on a miss run the full pipeline. -/
def generate_image (digest : String → String) (cfg : Config) (env : GenEnv)
    (prompt : String) (ov : Overrides) (st : GenState) :
    Option String × GenState × GenTrace :=
  let params := mergedParams cfg ov env.r
  if cfg.enable_cache then
    match ImageCache.get digest env.now st.table st.fs prompt params with
    | (some cached, table1) =>
      (some cached,
        { st with
          stats := { st.stats with cache_hits := st.stats.cache_hits + 1 },
          table := table1 },
        ⟨0, [], false⟩)
    | (none, table1) =>
      generateMiss digest cfg env prompt params { st with table := table1 }
  else
    generateMiss digest cfg env prompt params st

/-- C1: on a cache hit (the entry keyed by the hash of the ORIGINAL,
untranslated prompt together with the merged parameter set is in the table
and its backing file exists), generate_image returns the cached filepath,
issues no HTTP request and never invokes translation, increments
cache_hits by one and leaves images_generated unchanged. -/
theorem generate_image_cache_hit (digest : String → String) (cfg : Config)
    (env : GenEnv) (prompt : String) (ov : Overrides) (st : GenState)
    (e : CacheEntry)
    (hcache : cfg.enable_cache = true)
    (hlook : st.table.lookup
      (ImageCache.get_hash digest prompt (mergedParams cfg ov env.r)) = some e)
    (hfile : st.fs e.filepath = true) :
    (generate_image digest cfg env prompt ov st).1 = some e.filepath ∧
      (generate_image digest cfg env prompt ov st).2.1.stats.cache_hits =
        st.stats.cache_hits + 1 ∧
      (generate_image digest cfg env prompt ov st).2.1.stats.images_generated =
        st.stats.images_generated ∧
      (generate_image digest cfg env prompt ov st).2.2 =
        ⟨0, [], false⟩ := by
  simp only [generate_image, ImageCache.get, hcache, if_true, hlook, hfile]
  exact ⟨trivial, trivial, trivial, trivial⟩

/-- Concrete instances used by witnesses: a configuration with the cache
enabled, an environment, overrides carrying an explicit seed, and a cache
table already holding the matching entry. -/
def cfgW : Config :=
  { width := 512, height := 512, model := "flux", add_logo := true,
    enable_cache := true, max_retries := 3, image_format := "png",
    output_dir := "generated_images", model_edicion := "kontext" }

def ovW : Overrides := { width := none, height := none, model := none, seed := some 7 }

def envW : GenEnv :=
  { r := 0, webTranslate := fun s => s, fetch := fun _ => Outcome.transportError,
    saveOk := true, now := 5, timestamp := "20260101_000000", duration := 1 }

def entryW : CacheEntry := { filepath := "generated_images/a_cat.png", last_accessed := 0 }

def stW : GenState :=
  { stats := { images_generated := 0, cache_hits := 0,
               total_generation_time := 0, errors := 0 },
    table := [(ImageCache.get_hash (fun s => s) "a cat"
                (mergedParams cfgW ovW envW.r), entryW)],
    fs := fun _ => true }

/-- Witness for C1: on the concrete pre-populated state the call returns
the cached path, bumps cache_hits to 1, keeps images_generated at 0, and
performs no request and no translation. -/
theorem generate_image_cache_hit_witness :
    (generate_image (fun s => s) cfgW envW "a cat" ovW stW).1 =
        some entryW.filepath ∧
      (generate_image (fun s => s) cfgW envW "a cat" ovW stW).2.1.stats.cache_hits =
        1 ∧
      (generate_image (fun s => s) cfgW envW "a cat" ovW stW).2.1.stats.images_generated =
        0 ∧
      (generate_image (fun s => s) cfgW envW "a cat" ovW stW).2.2 =
        ⟨0, [], false⟩ :=
  generate_image_cache_hit (fun s => s) cfgW envW "a cat" ovW stW entryW
    rfl (by simp [stW, List.lookup]) rfl

/-! ## Seed draw (C7) -/

/-- Overrides carrying no seed, for the seed-draw statements. -/
def ovNoSeed : Overrides := { width := none, height := none, model := none, seed := none }

/-- C7 counterexample: the seed draw is random.randint(0, 1_000_000_000),
whose upper endpoint is INCLUDED; with raw randomness 1_000_000_000 the
merged parameter set carries the seed value 1_000_000_000 itself, so the
claimed half-open range [0, 1_000_000_000) is wrong. -/
theorem seed_draw_hits_upper_bound :
    (mergedParams cfgW ovNoSeed 1000000000).lookup "seed" =
        some (JValue.jint 1000000000) ∧
      ¬((1000000000 : Int) < 1000000000) := by
  constructor
  · rfl
  · omega

/-- C7 amended: when no seed override is given, the seed entry of the
merged parameter set is randint(0, 1_000_000_000) of the raw randomness,
an integer of the CLOSED range [0, 1_000_000_000] — the upper endpoint
included, as the counterexample shows it is attained. -/
theorem seed_draw_closed_range (cfg : Config) (ov : Overrides) (r : Nat)
    (h : ov.seed = none) :
    (mergedParams cfg ov r).lookup "seed" =
        some (JValue.jint (randint 0 1000000000 r)) ∧
      randint 0 1000000000 r ≤ 1000000000 := by
  constructor
  · simp [mergedParams, List.lookup, h]
  · unfold randint
    have := Nat.mod_lt r (show 0 < 1000000001 by omega)
    omega

/-- Witness for the amended C7: with raw randomness 42 and no override the
drawn seed is 42, within the closed range. -/
theorem seed_draw_closed_range_witness :
    (mergedParams cfgW ovNoSeed 42).lookup "seed" =
        some (JValue.jint (randint 0 1000000000 42)) ∧
      randint 0 1000000000 42 ≤ 1000000000 :=
  seed_draw_closed_range cfgW ovNoSeed 42 rfl

/-! ## Session statistics invariant (C9) -/

/-- Inputs of one generate_image call in a sequence of calls. -/
structure CallInput where
  prompt : String
  ov : Overrides
  env : GenEnv

/-- Run a finite sequence of generate_image calls, threading the state. -/
def runCalls (digest : String → String) (cfg : Config) :
    List CallInput → GenState → GenState
  | [], st => st
  | c :: cs, st =>
    runCalls digest cfg cs (generate_image digest cfg c.env c.prompt c.ov st).2.1

theorem generate_image_step_bound (digest : String → String) (cfg : Config)
    (env : GenEnv) (prompt : String) (ov : Overrides) (st : GenState) :
    (generate_image digest cfg env prompt ov st).2.1.stats.images_generated +
        (generate_image digest cfg env prompt ov st).2.1.stats.cache_hits ≤
      st.stats.images_generated + st.stats.cache_hits + 1 := by
  simp only [generate_image]
  by_cases hc : cfg.enable_cache = true
  · simp only [hc, if_true]
    rcases hg : ImageCache.get digest env.now st.table st.fs prompt
      (mergedParams cfg ov env.r) with ⟨opt, t1⟩
    cases opt with
    | some cached => simp; omega
    | none =>
      simp only [generateMiss]
      rcases hm : make_request env.fetch cfg.max_retries with ⟨res, nreq, sl⟩
      cases res with
      | ok v =>
        by_cases hs : env.saveOk = true <;> simp [hs] <;> omega
      | error e => simp
  · simp only [hc, if_false, generateMiss]
    rcases hm : make_request env.fetch cfg.max_retries with ⟨res, nreq, sl⟩
    cases res with
    | ok v =>
      by_cases hs : env.saveOk = true <;> simp [hs] <;> omega
    | error e => simp

theorem runCalls_bound (digest : String → String) (cfg : Config) :
    ∀ (cs : List CallInput) (st : GenState),
      (runCalls digest cfg cs st).stats.images_generated +
          (runCalls digest cfg cs st).stats.cache_hits ≤
        st.stats.images_generated + st.stats.cache_hits + cs.length := by
  intro cs
  induction cs with
  | nil => intro st; simp [runCalls]
  | cons c cs ih =>
    intro st
    have h1 := generate_image_step_bound digest cfg c.env c.prompt c.ov st
    have h2 := ih (generate_image digest cfg c.env c.prompt c.ov st).2.1
    simp only [runCalls, List.length_cons]
    omega

/-- C9: starting from the freshly reset statistics, after any finite
sequence of generate_image calls the sum images_generated + cache_hits
never exceeds the number of calls made: each call increments at most one
of the two counters, by at most one. -/
theorem stats_sum_le_calls (digest : String → String) (cfg : Config)
    (cs : List CallInput) (table : List (String × CacheEntry))
    (fs : String → Bool) :
    (runCalls digest cfg cs
        { stats := { images_generated := 0, cache_hits := 0,
                     total_generation_time := 0, errors := 0 },
          table := table, fs := fs }).stats.images_generated +
      (runCalls digest cfg cs
        { stats := { images_generated := 0, cache_hits := 0,
                     total_generation_time := 0, errors := 0 },
          table := table, fs := fs }).stats.cache_hits ≤ cs.length := by
  have h := runCalls_bound digest cfg cs
    { stats := { images_generated := 0, cache_hits := 0,
                 total_generation_time := 0, errors := 0 },
      table := table, fs := fs }
  simpa using h

/-! ## Cache sweep: embedding of ImageCache.clean_cache (C8)

The source computes the age limit (the days argument when positive, else
the configured max_age_days), then runs two passes: (a) for every row whose
last_accessed is older than the cutoff, best-effort delete the backing file
(an os.remove failure is only logged) and delete the row; (b) delete every
remaining row whose backing file no longer exists.  A local deleted_count
is incremented for each deleted row and LOGGED — the Python function has no
return statement, so it returns None. -/

namespace ImageCache

/-- Result of one clean_cache call: the surviving table, the filesystem
after the best-effort file removals, the logged count of deleted rows, and
the Python return value of the function. -/
structure CleanResult where
  table : List (String × CacheEntry)
  fs : String → Bool
  deletedCount : Nat
  ret : Option Nat

/-- Embedding of ImageCache.clean_cache.  `removeOk` tells which paths
os.remove can actually delete (best-effort semantics); `now` is the
current time and the cutoff is `now - age_limit` in day units. -/
def clean_cache (days max_age_days : Nat) (now : Int)
    (removeOk : String → Bool) (table : List (String × CacheEntry))
    (fs : String → Bool) : CleanResult :=
  let age_limit : Nat := if 0 < days then days else max_age_days
  let cutoff : Int := now - age_limit
  let expired := table.filter (fun e => decide (e.2.last_accessed < cutoff))
  let fs1 := expired.foldl (fun f e =>
    if f e.2.filepath && removeOk e.2.filepath then
      fun q => if q == e.2.filepath then false else f q
    else f) fs
  let table1 := table.filter (fun e => !(decide (e.2.last_accessed < cutoff)))
  let orphans := table1.filter (fun e => !(fs1 e.2.filepath))
  let table2 := table1.filter (fun e => fs1 e.2.filepath)
  { table := table2, fs := fs1,
    deletedCount := expired.length + orphans.length, ret := none }

end ImageCache

theorem filter_length_partition {α : Type} (p : α → Bool) (l : List α) :
    (l.filter p).length + (l.filter (fun a => !(p a))).length = l.length := by
  induction l with
  | nil => rfl
  | cons a t ih =>
    by_cases h : p a = true <;> simp [List.filter_cons, h] <;> omega

/-- C8 counterexample: on a table holding one entry whose last_accessed
lies beyond the age limit, the sweep deletes that entry (deletedCount = 1)
yet returns None, not the count: the Python function has no return
statement. -/
theorem clean_cache_returns_none :
    (ImageCache.clean_cache 1 30 100 (fun _ => true)
        [("h", { filepath := "f", last_accessed := 0 })]
        (fun _ => true)).deletedCount = 1 ∧
      (ImageCache.clean_cache 1 30 100 (fun _ => true)
        [("h", { filepath := "f", last_accessed := 0 })]
        (fun _ => true)).ret = none ∧
      ¬((ImageCache.clean_cache 1 30 100 (fun _ => true)
          [("h", { filepath := "f", last_accessed := 0 })]
          (fun _ => true)).ret =
        some (ImageCache.clean_cache 1 30 100 (fun _ => true)
          [("h", { filepath := "f", last_accessed := 0 })]
          (fun _ => true)).deletedCount) := by
  refine ⟨rfl, rfl, ?_⟩
  intro h
  exact Option.noConfusion h

/-- C8 amended: clean_cache performs the two sweep passes — every surviving
entry is neither older than the age limit nor orphaned of its backing file
— and the count of removed entries (number of rows dropped from the table)
is computed and logged, but the function itself returns None rather than
that count. -/
theorem clean_cache_two_passes (days max_age_days : Nat) (now : Int)
    (removeOk : String → Bool) (table : List (String × CacheEntry))
    (fs : String → Bool) :
    (ImageCache.clean_cache days max_age_days now removeOk table fs).ret =
        none ∧
      (ImageCache.clean_cache days max_age_days now removeOk table fs).deletedCount +
          (ImageCache.clean_cache days max_age_days now removeOk table fs).table.length =
        table.length ∧
      (∀ e ∈ (ImageCache.clean_cache days max_age_days now removeOk table fs).table,
        ¬(e.2.last_accessed <
            now - (if 0 < days then days else max_age_days : Nat)) ∧
          (ImageCache.clean_cache days max_age_days now removeOk table fs).fs
            e.2.filepath = true) := by
  refine ⟨rfl, ?_, ?_⟩
  · simp only [ImageCache.clean_cache]
    have h1 := filter_length_partition
      (fun e : String × CacheEntry =>
        decide (e.2.last_accessed <
          now - (if 0 < days then (days : Nat) else max_age_days))) table
    set cutoff : Int := now - (if 0 < days then (days : Nat) else max_age_days)
    set fs1 := (table.filter
      (fun e : String × CacheEntry =>
        decide (e.2.last_accessed < cutoff))).foldl (fun f e =>
      if f e.2.filepath && removeOk e.2.filepath then
        fun q => if q == e.2.filepath then false else f q
      else f) fs
    have h2 := filter_length_partition
      (fun e : String × CacheEntry => fs1 e.2.filepath)
      (table.filter (fun e : String × CacheEntry =>
        !(decide (e.2.last_accessed < cutoff))))
    simp only [Bool.not_not] at h1 h2 ⊢
    omega
  · intro e he
    simp only [ImageCache.clean_cache, List.mem_filter] at he
    rcases he with ⟨⟨_, hnotold⟩, he2⟩
    constructor
    · simpa using hnotold
    · exact he2

/-! ## Edit fallback chain: embedding of ImageTool.edit_image (C6) -/

/-- The model_params dict literal of the source, in its insertion order:
model name, reference-image query-parameter name, and the text prepended
to the translated prompt. -/
def model_params : List (String × String × String) :=
  [("kontext", "image", ""),
   ("flux", "reference", "based on reference image, "),
   ("flux-kontext", "image", "")]

/-- Embedding of methods_to_try: the preferred model first, then the other
dict keys in their canonical insertion order. -/
def methods_to_try (preferred : String) : List String :=
  preferred :: (model_params.map (fun p => p.1)).filter (fun m => !(m == preferred))

/-- Embedding of the methods list: each name of methods_to_try that is a
key of model_params, paired with its parameter name and prompt prepend. -/
def methods (preferred : String) : List (String × String × String) :=
  (methods_to_try preferred).filterMap (fun m =>
    (model_params.lookup m).map (fun pv => (m, pv.1, pv.2)))

/-- Per-call environment of edit_image: the GoFile upload result, the
translation collaborator, and per-method-index the HTTP oracle, the
_save_image success flag, the raw randomness of the seed draw and the
filename timestamp. -/
structure EditEnv where
  upload : Option String
  webTranslate : String → String
  fetchFor : Nat → Nat → Outcome
  saveOkFor : Nat → Bool
  seedFor : Nat → Nat
  timestampFor : Nat → String

/-- The attempt loop of edit_image over the methods list (`i` is the
method index): each iteration issues one _make_request; on success plus a
successful save it returns the saved path at once; a ConnectionError, a
ValueError or an IOError is caught and the loop continues.  Returns the
result and the number of _make_request invocations. -/
def editLoop (cfg : Config) (env : EditEnv) (ov : Overrides)
    (translated url : String) :
    List (String × String × String) → Nat → Option String × Nat
  | [], _ => (none, 0)
  | me :: rest, i =>
    let final_prompt := me.2.2 ++ translated
    let params : List (String × JValue) :=
      [("model", JValue.jstr me.1),
       (me.2.1, JValue.jstr url),
       ("seed", JValue.jint
         (ov.seed.getD (randint 0 1000000000 (env.seedFor i)))),
       ("width", JValue.jint (ov.width.getD cfg.width)),
       ("height", JValue.jint (ov.height.getD cfg.height)),
       ("nologo", JValue.jbool (!cfg.add_logo))]
    match make_request (env.fetchFor i) cfg.max_retries with
    | (Except.ok _, _, _) =>
      if env.saveOkFor i then
        (some (cfg.output_dir ++ "/" ++
          generate_filename ("edit_" ++ me.1 ++ "_" ++ translated)
            (env.timestampFor i) cfg.image_format.toLower), 1)
      else
        let r := editLoop cfg env ov translated url rest (i + 1)
        (r.1, r.2 + 1)
    | (Except.error _, _, _) =>
      let r := editLoop cfg env ov translated url rest (i + 1)
      (r.1, r.2 + 1)

/-- Embedding of ImageTool.edit_image: fail fast when the source image
does not exist, abort when the upload yields no public URL, otherwise
translate the prompt and walk the methods list; when every attempt fails,
bump errors.  Returns the result, the state, and the number of
_make_request invocations. -/
def edit_image (cfg : Config) (env : EditEnv) (prompt image_path : String)
    (ov : Overrides) (st : GenState) : Option String × GenState × Nat :=
  if !(st.fs image_path) then (none, st, 0)
  else
    match env.upload with
    | none => (none, st, 0)
    | some url =>
      let translated := translate_prompt env.webTranslate prompt
      match editLoop cfg env ov translated url (methods cfg.model_edicion) 0 with
      | (some p, n) => (some p, st, n)
      | (none, n) =>
        (none,
          { st with stats := { st.stats with errors := st.stats.errors + 1 } },
          n)

/-- An edit attempt at method index i succeeds when its _make_request call
returns a response and the subsequent save succeeds. -/
def methodSucceeds (cfg : Config) (env : EditEnv) (i : Nat) : Prop :=
  (make_request (env.fetchFor i) cfg.max_retries).1.isOk = true ∧
    env.saveOkFor i = true

/-! Slug lemmas: the filename of a successful edit attempt carries the
model name, because the slug pipeline keeps the model tag intact: the tag
is lowercase, made of word characters and hyphens, contains no whitespace,
and together with its edit marker stays within the 50-character cut. -/

/-- A character left fixed by the whole slug pipeline: already lowercase,
kept by the character-class filter, no whitespace. -/
def slugFixed (c : Char) : Bool :=
  (Char.toLower c == c) && allowedChar c && !(isSpaceChar c)

theorem dropWhile_eq_self_of_all (p : Char → Bool) (l : List Char)
    (h : l.all (fun c => !(p c)) = true) : l.dropWhile p = l := by
  cases l with
  | nil => rfl
  | cons a t =>
    have ha : p a = false := by
      have := (List.all_eq_true.1 h) a (List.mem_cons_self a t)
      simpa using this
    simp [List.dropWhile_cons, ha]

theorem map_eq_self_of_fix {f : Char → Char} (l : List Char)
    (h : ∀ c ∈ l, f c = c) : l.map f = l := by
  induction l with
  | nil => rfl
  | cons a t ih =>
    rw [List.map_cons, h a (List.mem_cons_self a t),
      ih (fun c hc => h c (List.mem_cons_of_mem a hc))]

theorem cleanCore_append (a : Char) (h : List Char) (t : List Char)
    (hg : (a :: h).all slugFixed = true) :
    ∃ rest, cleanCore ((a :: h) ++ t) = (a :: h) ++ rest := by
  have hall : ∀ c ∈ a :: h, slugFixed c = true := List.all_eq_true.1 hg
  have hlow : ∀ c ∈ a :: h, Char.toLower c = c := by
    intro c hc
    have := hall c hc
    simp only [slugFixed, Bool.and_eq_true, beq_iff_eq] at this
    exact this.1.1
  have hkeep : ∀ c ∈ a :: h, allowedChar c = true := by
    intro c hc
    have := hall c hc
    simp only [slugFixed, Bool.and_eq_true] at this
    exact this.1.2
  have hnosp : ∀ c ∈ a :: h, isSpaceChar c = false := by
    intro c hc
    have := hall c hc
    simp only [slugFixed, Bool.and_eq_true, Bool.not_eq_eq_eq_not,
      Bool.not_true] at this
    exact this.2
  have hmap : (a :: h).map Char.toLower = a :: h := map_eq_self_of_fix _ hlow
  have hfil : (a :: h).filter allowedChar = a :: h := List.filter_eq_self.2 hkeep
  unfold cleanCore
  rw [List.map_append, hmap, List.filter_append, hfil]
  set u := (t.map Char.toLower).filter allowedChar with hu
  have hstrip : ∃ w, stripChars ((a :: h) ++ u) = (a :: h) ++ w := by
    unfold stripChars
    have hdrop1 : ((a :: h) ++ u).dropWhile isSpaceChar = (a :: h) ++ u := by
      have ha : isSpaceChar a = false := hnosp a (List.mem_cons_self a h)
      simp [List.dropWhile_cons, ha]
    rw [hdrop1, List.reverse_append]
    rw [List.dropWhile_append]
    by_cases hcase : (u.reverse.dropWhile isSpaceChar).isEmpty = true
    · rw [if_pos hcase]
      have : (a :: h).reverse.dropWhile isSpaceChar = (a :: h).reverse := by
        refine dropWhile_eq_self_of_all _ _ ?_
        refine List.all_eq_true.2 ?_
        intro c hc
        have hc2 : c ∈ a :: h := List.mem_reverse.1 hc
        simp [hnosp c hc2]
      rw [this, List.reverse_reverse]
      exact ⟨[], by simp⟩
    · rw [if_neg hcase]
      refine ⟨(u.reverse.dropWhile isSpaceChar).reverse, ?_⟩
      rw [List.reverse_append, List.reverse_reverse]
  rcases hstrip with ⟨w, hw⟩
  rw [hw, List.map_append]
  have hmap2 : (a :: h).map (fun c => if c == ' ' then '_' else c) = a :: h := by
    refine map_eq_self_of_fix _ ?_
    intro c hc
    have : isSpaceChar c = false := hnosp c hc
    have hne : (c == ' ') = false := by
      simp only [isSpaceChar, Bool.or_eq_false_iff] at this
      exact this.1.1.1.1.1
    simp [hne]
  rw [hmap2]
  exact ⟨w.map (fun c => if c == ' ' then '_' else c), rfl⟩

theorem cleanPrompt_head (headStr x : String)
    (hne : headStr.toList ≠ [])
    (hg : headStr.toList.all slugFixed = true)
    (hlen : headStr.toList.length ≤ 50) :
    ∃ rest, cleanPrompt (headStr ++ x) = headStr.toList ++ rest := by
  rcases hh : headStr.toList with _ | ⟨a, h⟩
  · exact absurd hh hne
  have hsplit : (headStr ++ x).toList = (a :: h) ++ x.toList := by
    have : (headStr ++ x).toList = headStr.toList ++ x.toList := rfl
    rw [this, hh]
  rcases cleanCore_append a h x.toList (hh ▸ hg) with ⟨rest, hr⟩
  unfold cleanPrompt
  rw [hsplit, hr, List.take_append_eq_append_take,
    List.take_of_length_le (by rw [← hh]; exact hlen)]
  exact ⟨rest.take (50 - (a :: h).length), rfl⟩

theorem containsSub_of_parts (n pre post : List Char) :
    containsSub n (pre ++ n ++ post) = true := by
  rw [containsSub_iff]
  exact ⟨pre, post, rfl⟩

/-- The saved path of a successful edit attempt contains the model tag. -/
theorem edit_filename_tagged (m outdir translated ts fmt : String)
    (hne : ("edit_" ++ m ++ "_").toList ≠ [])
    (hg : ("edit_" ++ m ++ "_").toList.all slugFixed = true)
    (hlen : ("edit_" ++ m ++ "_").toList.length ≤ 50) :
    containsSub m.toList
      (outdir ++ "/" ++
        generate_filename ("edit_" ++ m ++ "_" ++ translated) ts fmt).toList =
      true := by
  rcases cleanPrompt_head ("edit_" ++ m ++ "_") translated hne hg hlen with ⟨rest, hr⟩
  rw [containsSub_iff]
  refine ⟨outdir.toList ++ "/".toList ++ "edit_".toList,
    "_".toList ++ rest ++ "_".toList ++ ts.toList ++ ".".toList ++ fmt.toList, ?_⟩
  have hS : (outdir ++ "/" ++
      generate_filename ("edit_" ++ m ++ "_" ++ translated) ts fmt).toList =
      outdir.toList ++ "/".toList ++
        (cleanPrompt ("edit_" ++ m ++ "_" ++ translated) ++ "_".toList ++
          ts.toList ++ ".".toList ++ fmt.toList) := rfl
  have hhead : ("edit_" ++ m ++ "_").toList =
      "edit_".toList ++ m.toList ++ "_".toList := rfl
  rw [hS, hr, hhead]
  simp [List.append_assoc]

theorem editLoop_cons_of_error (cfg : Config) (env : EditEnv) (ov : Overrides)
    (translated url : String) (me : String × String × String)
    (rest : List (String × String × String)) (i : Nat) (e : FetchError)
    (n : Nat) (s : List Nat)
    (hm : make_request (env.fetchFor i) cfg.max_retries = (Except.error e, n, s)) :
    editLoop cfg env ov translated url (me :: rest) i =
      ((editLoop cfg env ov translated url rest (i + 1)).1,
        (editLoop cfg env ov translated url rest (i + 1)).2 + 1) := by
  simp only [editLoop, hm]

theorem editLoop_cons_of_savefail (cfg : Config) (env : EditEnv) (ov : Overrides)
    (translated url : String) (me : String × String × String)
    (rest : List (String × String × String)) (i : Nat) (v : Nat × String)
    (n : Nat) (s : List Nat)
    (hm : make_request (env.fetchFor i) cfg.max_retries = (Except.ok v, n, s))
    (hs : env.saveOkFor i = false) :
    editLoop cfg env ov translated url (me :: rest) i =
      ((editLoop cfg env ov translated url rest (i + 1)).1,
        (editLoop cfg env ov translated url rest (i + 1)).2 + 1) := by
  simp only [editLoop, hm, hs, Bool.false_eq_true, if_false]

theorem editLoop_cons_of_save (cfg : Config) (env : EditEnv) (ov : Overrides)
    (translated url : String) (me : String × String × String)
    (rest : List (String × String × String)) (i : Nat) (v : Nat × String)
    (n : Nat) (s : List Nat)
    (hm : make_request (env.fetchFor i) cfg.max_retries = (Except.ok v, n, s))
    (hs : env.saveOkFor i = true) :
    editLoop cfg env ov translated url (me :: rest) i =
      (some (cfg.output_dir ++ "/" ++
        generate_filename ("edit_" ++ me.1 ++ "_" ++ translated)
          (env.timestampFor i) cfg.image_format.toLower), 1) := by
  simp only [editLoop, hm, hs, if_true]

/-- C6: with a known preferred edit model, the attempt order is the
preferred model first then the remaining known models in canonical order
without duplicates; when the first attempt fails and the second succeeds,
exactly two _make_request invocations happen (the success short-circuits
the rest) and the returned path is tagged with the second model name. -/
theorem edit_image_fallback (cfg : Config) (env : EditEnv)
    (prompt image_path : String) (ov : Overrides) (st : GenState) (u : String)
    (hknown : cfg.model_edicion ∈ model_params.map (fun p => p.1))
    (hfile : st.fs image_path = true)
    (hup : env.upload = some u)
    (h0 : ¬ methodSucceeds cfg env 0)
    (h1 : methodSucceeds cfg env 1) :
    ((methods cfg.model_edicion).map (fun p => p.1) =
        cfg.model_edicion ::
          (model_params.map (fun p => p.1)).filter
            (fun m => !(m == cfg.model_edicion)) ∧
      ((methods cfg.model_edicion).map (fun p => p.1)).Nodup) ∧
      (edit_image cfg env prompt image_path ov st).2.2 = 2 ∧
      ∃ fname, (edit_image cfg env prompt image_path ov st).1 = some fname ∧
        containsSub
          ((((methods cfg.model_edicion).map (fun p => p.1)).getD 1 "").toList)
          fname.toList = true := by
  have hloop : ∀ m0 m1 m2 : String × String × String,
      methods cfg.model_edicion = [m0, m1, m2] →
      editLoop cfg env ov (translate_prompt env.webTranslate prompt) u
          (methods cfg.model_edicion) 0 =
        (some (cfg.output_dir ++ "/" ++
          generate_filename ("edit_" ++ m1.1 ++ "_" ++
              translate_prompt env.webTranslate prompt)
            (env.timestampFor 1) cfg.image_format.toLower), 2) := by
    intro m0 m1 m2 hms
    rw [hms]
    rcases h1 with ⟨hok1, hsave1⟩
    have hstep1 : editLoop cfg env ov
        (translate_prompt env.webTranslate prompt) u [m1, m2] 1 =
        (some (cfg.output_dir ++ "/" ++
          generate_filename ("edit_" ++ m1.1 ++ "_" ++
              translate_prompt env.webTranslate prompt)
            (env.timestampFor 1) cfg.image_format.toLower), 1) := by
      rcases hm1 : make_request (env.fetchFor 1) cfg.max_retries with ⟨res1, n1, s1⟩
      cases res1 with
      | error e => rw [hm1] at hok1; simp [Except.isOk, Except.toBool] at hok1
      | ok v =>
        exact editLoop_cons_of_save cfg env ov _ u m1 [m2] 1 v n1 s1 hm1 hsave1
    rcases hm0 : make_request (env.fetchFor 0) cfg.max_retries with ⟨res0, n0, s0⟩
    cases res0 with
    | error e =>
      rw [editLoop_cons_of_error cfg env ov _ u m0 [m1, m2] 0 e n0 s0 hm0, hstep1]
    | ok v =>
      have hsave0 : env.saveOkFor 0 = false := by
        by_contra hx
        exact h0 ⟨by rw [hm0]; rfl, by simpa using hx⟩
      rw [editLoop_cons_of_savefail cfg env ov _ u m0 [m1, m2] 0 v n0 s0 hm0
        hsave0, hstep1]
  have hedit : ∀ m0 m1 m2 : String × String × String,
      methods cfg.model_edicion = [m0, m1, m2] →
      edit_image cfg env prompt image_path ov st =
        (some (cfg.output_dir ++ "/" ++
          generate_filename ("edit_" ++ m1.1 ++ "_" ++
              translate_prompt env.webTranslate prompt)
            (env.timestampFor 1) cfg.image_format.toLower), st, 2) := by
    intro m0 m1 m2 hms
    unfold edit_image
    rw [hfile]
    simp only [Bool.not_true, Bool.false_eq_true, if_false, hup]
    rw [hloop m0 m1 m2 hms]
  simp only [model_params, List.map_cons, List.map_nil, List.mem_cons,
    List.not_mem_nil, or_false] at hknown
  rcases hknown with hpm | hpm | hpm
  · rw [hedit ("kontext", "image", "")
      ("flux", "reference", "based on reference image, ")
      ("flux-kontext", "image", "") (by rw [hpm]; rfl)]
    refine ⟨⟨by rw [hpm]; rfl, by rw [hpm]; decide⟩, rfl, ?_⟩
    refine ⟨_, rfl, ?_⟩
    rw [hpm]
    exact edit_filename_tagged "flux" cfg.output_dir
      (translate_prompt env.webTranslate prompt) (env.timestampFor 1)
      cfg.image_format.toLower (by decide) (by decide) (by decide)
  · rw [hedit ("flux", "reference", "based on reference image, ")
      ("kontext", "image", "")
      ("flux-kontext", "image", "") (by rw [hpm]; rfl)]
    refine ⟨⟨by rw [hpm]; rfl, by rw [hpm]; decide⟩, rfl, ?_⟩
    refine ⟨_, rfl, ?_⟩
    rw [hpm]
    exact edit_filename_tagged "kontext" cfg.output_dir
      (translate_prompt env.webTranslate prompt) (env.timestampFor 1)
      cfg.image_format.toLower (by decide) (by decide) (by decide)
  · rw [hedit ("flux-kontext", "image", "")
      ("kontext", "image", "")
      ("flux", "reference", "based on reference image, ") (by rw [hpm]; rfl)]
    refine ⟨⟨by rw [hpm]; rfl, by rw [hpm]; decide⟩, rfl, ?_⟩
    refine ⟨_, rfl, ?_⟩
    rw [hpm]
    exact edit_filename_tagged "kontext" cfg.output_dir
      (translate_prompt env.webTranslate prompt) (env.timestampFor 1)
      cfg.image_format.toLower (by decide) (by decide) (by decide)

/-- Concrete environment for the C6 witness: upload succeeds, the first
method fails at transport level on every retry, the second method answers
with an image at once, saving succeeds. -/
def editEnvW : EditEnv :=
  { upload := some "https://srv.gofile.io/download/x/img.png",
    webTranslate := fun s => s,
    fetchFor := fun i _ => if i == 0 then Outcome.transportError
      else Outcome.response 200 "image/png",
    saveOkFor := fun _ => true,
    seedFor := fun _ => 0,
    timestampFor := fun _ => "20260101_000000" }

/-- Witness for C6 on a concrete run: preferred model kontext, first
attempt failing, second succeeding: the order is canonical and duplicate
free, exactly two attempts happen, and the result is tagged "flux". -/
theorem edit_image_fallback_witness :
    ((methods cfgW.model_edicion).map (fun p => p.1) =
        cfgW.model_edicion ::
          (model_params.map (fun p => p.1)).filter
            (fun m => !(m == cfgW.model_edicion)) ∧
      ((methods cfgW.model_edicion).map (fun p => p.1)).Nodup) ∧
      (edit_image cfgW editEnvW "a cat" "in.png" ovW stW).2.2 = 2 ∧
      ∃ fname, (edit_image cfgW editEnvW "a cat" "in.png" ovW stW).1 =
          some fname ∧
        containsSub
          ((((methods cfgW.model_edicion).map (fun p => p.1)).getD 1 "").toList)
          fname.toList = true :=
  edit_image_fallback cfgW editEnvW "a cat" "in.png" ovW stW
    "https://srv.gofile.io/download/x/img.png"
    (by decide) rfl rfl
    (by
      intro hx
      rcases hx with ⟨hok, _⟩
      rw [make_request_all_retryable (editEnvW.fetchFor 0) cfgW.max_retries
        (fun i _ => Or.inl rfl)] at hok
      simp [Except.isOk, Except.toBool] at hok)
    (by
      constructor
      · rw [show make_request (editEnvW.fetchFor 1) cfgW.max_retries =
          (Except.ok (200, "image/png"), 1, []) from rfl]
        rfl
      · rfl)

end PicGen
